import Mathlib

/-!
Shallow embedding of the Browser-Shopping-Agent extension core
(listing extraction, aggregation, ranking fallback) together with
proofs about the properties its design document states.

JavaScript numbers are modelled as `ℚ`; a field that can hold either a
number or `NaN` is modelled as `Option ℚ` with `none` playing the role
of `NaN` (all downstream consumers in this code base treat `NaN` and
`null` alike, through falsiness).  JavaScript strings that may be
`null`/`undefined` are modelled as `Option String`, with `some ""`
the empty (falsy) string and `none` the null value.
-/

/-- Truthiness of a JavaScript string-or-null value: `null`, `undefined`
and `""` are falsy, every other string is truthy. -/
def jsTruthyS : Option String → Bool
  | none => false
  | some s => s ≠ ""

/-- JavaScript `a || b` on string-or-null values. -/
def jsOrS (a b : Option String) : Option String :=
  if jsTruthyS a then a else b

/-- Substring test over character lists, mirroring JavaScript
`String.prototype.includes`. -/
def containsSub (hay needle : List Char) : Bool :=
  needle.isPrefixOf hay ||
    match hay with
    | [] => false
    | _ :: t => containsSub t needle

/-- JavaScript `s.includes(sub)`. -/
def jsIncludes (s sub : String) : Bool :=
  containsSub s.toList sub.toList

/-- Whitespace class of the JavaScript regular-expression `\s`
(restricted to its ASCII members, the only ones this code meets). -/
def jsIsSpace (c : Char) : Bool :=
  c = ' ' || c = '\t' || c = '\n' || c = '\r' || c = '\x0b' || c = '\x0c'

/-- Word-character class of the JavaScript regular expression `\w`. -/
def jsIsWordChar (c : Char) : Bool :=
  c.isAlphanum || c = '_'

/-- Numeric value of a list of decimal digit characters. -/
def digitsToNat : List Char → Nat
  | [] => 0
  | c :: cs => digitsToNat cs + c.toNat.sub 48 * 10 ^ cs.length

/-- Helper for `jsParseFloat`: value of an integer part together with a
fraction part, as a rational. -/
def decimalValue (intPart fracPart : List Char) : ℚ :=
  (digitsToNat intPart : ℚ) + (digitsToNat fracPart : ℚ) / (10 : ℚ) ^ fracPart.length

/-- Core of JavaScript `parseFloat` after leading whitespace and sign
have been taken: digits, optional fraction, optional exponent.  Returns
`none` where JavaScript returns `NaN`. -/
def jsParseFloatCore (cs : List Char) : Option ℚ :=
  let intPart := cs.takeWhile Char.isDigit
  let rest₁ := cs.dropWhile Char.isDigit
  let fracPart :=
    match rest₁ with
    | '.' :: t => t.takeWhile Char.isDigit
    | _ => []
  let rest₂ :=
    match rest₁ with
    | '.' :: t => t.dropWhile Char.isDigit
    | r => r
  if intPart.isEmpty && fracPart.isEmpty then none
  else
    let base := decimalValue intPart fracPart
    match rest₂ with
    | 'e' :: t => some (base * expFactor t)
    | 'E' :: t => some (base * expFactor t)
    | _ => some base
where
  /-- Value of an optional exponent suffix; an exponent without digits is
  ignored (factor 1), as `parseFloat` stops at the first unusable char. -/
  expFactor (t : List Char) : ℚ :=
    let (sign, digs) :=
      match t with
      | '+' :: r => ((1 : ℤ), r.takeWhile Char.isDigit)
      | '-' :: r => ((-1 : ℤ), r.takeWhile Char.isDigit)
      | r => ((1 : ℤ), r.takeWhile Char.isDigit)
    if digs.isEmpty then 1 else (10 : ℚ) ^ (sign * (digitsToNat digs : ℤ))

/-- JavaScript `parseFloat`: skip leading whitespace, optional sign,
then parse a decimal number; `NaN` is modelled as `none`. -/
def jsParseFloat (s : String) : Option ℚ :=
  let cs := s.toList.dropWhile jsIsSpace
  match cs with
  | '-' :: t => (jsParseFloatCore t).map (fun q => -q)
  | '+' :: t => jsParseFloatCore t
  | t => jsParseFloatCore t

/-- JavaScript `parseInt(s)` in base 10; `NaN` is modelled as `none`. -/
def jsParseInt (s : String) : Option Int :=
  let cs := s.toList.dropWhile jsIsSpace
  let (sign, t) :=
    match cs with
    | '-' :: t => ((-1 : ℤ), t)
    | '+' :: t => ((1 : ℤ), t)
    | t => ((1 : ℤ), t)
  let digs := t.takeWhile Char.isDigit
  if digs.isEmpty then none else some (sign * (digitsToNat digs : ℤ))

/-- Removal of every comma, as in `.replace(/,/g, '')`. -/
def stripCommas (cs : List Char) : List Char :=
  cs.filter (fun c => c ≠ ',')

/-!
## Listing schema (src/extension/shared/schema.js)
-/

/-- Price record of a Listing. `value` is `none` when the JavaScript
value is `NaN`. -/
structure Price where
  value : Option ℚ
  currency : String
deriving Repr, DecidableEq

/-- Shipping record of a Listing. -/
structure Shipping where
  cost : Option ℚ
  eta_days : Option Int
  method : String
deriving Repr, DecidableEq

/-- Returns-policy record of a Listing. -/
structure Returns where
  available : Option Bool
  window_days : Option Int
  unknown : Bool
deriving Repr, DecidableEq

/-- Seller record of a Listing. -/
structure Seller where
  name : Option String
  rating : Option ℚ
  reviews : Option Int
  is_official : Option Bool
deriving Repr, DecidableEq

/-- Specs record of a Listing. -/
structure Specs where
  brand : Option String
  model : Option String
  key_terms : List String
deriving Repr, DecidableEq

/-- Signals record of a Listing. -/
structure Signals where
  sponsored : Bool
  low_stock : Option Bool
deriving Repr, DecidableEq

/-- Provenance record of a Listing. -/
structure RawInfo where
  captured_at : String
  notes : Option String
deriving Repr, DecidableEq

/-- Normalized Listing, the shape produced by `createEmptyListing` in
schema.js and built inline by the parsers. -/
structure Listing where
  id : String
  source : String
  title : Option String
  url : Option String
  image_url : Option String
  price : Price
  condition : String
  shipping : Shipping
  returns : Returns
  seller : Seller
  specs : Specs
  signals : Signals
  raw : RawInfo
deriving Repr, DecidableEq

/-- Embedding of `createEmptyListing` (schema.js); `capturedAt` stands
for `new Date().toISOString()`. -/
def createEmptyListing (capturedAt : String) : Listing where
  id := ""
  source := "manual"
  title := some ""
  url := some ""
  image_url := none
  price := { value := some 0, currency := "USD" }
  condition := "unknown"
  shipping := { cost := none, eta_days := none, method := "unknown" }
  returns := { available := none, window_days := none, unknown := true }
  seller := { name := none, rating := none, reviews := none, is_official := none }
  specs := { brand := none, model := none, key_terms := [] }
  signals := { sponsored := false, low_stock := none }
  raw := { captured_at := capturedAt, notes := none }

/-- Weight vector of a DecisionSpec: the five scoring criteria. -/
structure Weights where
  price : ℚ
  delivery : ℚ
  reliability : ℚ
  returns : ℚ
  spec_match : ℚ
deriving Repr, DecidableEq

/-- Sum of the five weight entries, the `Object.values(...).reduce`
of schema.js. -/
def Weights.sum (w : Weights) : ℚ :=
  w.price + w.delivery + w.reliability + w.returns + w.spec_match

/-- Embedding of `validateWeights` (schema.js): the sum must be within
0.01 of 1.0. -/
def validateWeights (w : Weights) : Bool :=
  |w.sum - 1| < 1 / 100

/-- Embedding of `normalizeWeights` (schema.js): rescale each entry by
the sum; a zero-sum vector is returned unchanged. -/
def normalizeWeights (w : Weights) : Weights :=
  if w.sum = 0 then w
  else
    { price := w.price / w.sum
      delivery := w.delivery / w.sum
      reliability := w.reliability / w.sum
      returns := w.returns / w.sum
      spec_match := w.spec_match / w.sum }

/-!
## Claim C3
-/

theorem normalizeWeights_sum (w : Weights) (h : w.sum ≠ 0) :
    (normalizeWeights w).sum = 1 := by
  unfold normalizeWeights Weights.sum at *
  simp only [if_neg h]
  field_simp

/-- C3: for every weight mapping whose values sum to a nonzero total,
`validateWeights (normalizeWeights w)` returns `true` — normalization
rescales each entry by the sum, and validation accepts any mapping whose
values sum to within 0.01 of 1.0. -/
theorem claim_C3 (w : Weights) (h : w.sum ≠ 0) :
    validateWeights (normalizeWeights w) = true := by
  unfold validateWeights
  rw [normalizeWeights_sum w h]
  norm_num

/-- Witness for C3 at a concrete weight vector. -/
theorem claim_C3_witness :
    Weights.sum ⟨1, 1, 1, 1, 1⟩ ≠ 0 ∧
      validateWeights (normalizeWeights ⟨1, 1, 1, 1, 1⟩) = true :=
  ⟨by norm_num [Weights.sum], claim_C3 ⟨1, 1, 1, 1, 1⟩ (by norm_num [Weights.sum])⟩


/-!
## Tokenization helpers (the `split(/\s+/)` idiom of the parsers)
-/

/-- Accumulating helper for `wsFields`; `cur` holds the characters of
the current in-progress run, reversed. -/
def wsFieldsAux (cur : List Char) : List Char → List String
  | [] => if cur.isEmpty then [] else [String.mk cur.reverse]
  | c :: rest =>
    if jsIsSpace c then
      (if cur.isEmpty then [] else [String.mk cur.reverse]) ++ wsFieldsAux [] rest
    else wsFieldsAux (c :: cur) rest

/-- Maximal runs of non-whitespace characters, in order. -/
def wsFields (cs : List Char) : List String :=
  wsFieldsAux [] cs

/-- Embedding of JavaScript `s.split(/\s+/)`: the non-whitespace runs,
plus an empty token at the front (resp. back) when the string starts
(resp. ends) with whitespace; the empty string splits to `[""]`. -/
def jsSplitWs : List Char → List String
  | [] => [""]
  | c :: rest =>
    (if jsIsSpace c then [""] else []) ++ wsFields (c :: rest) ++
      (if jsIsSpace ((c :: rest).getLastD c) then [""] else [])

/-- Replacement of every non-word, non-space character by a space — the
`.replace(/[^\w\s]/g, ' ')` idiom. -/
def jsNormalizeWord (cs : List Char) : List Char :=
  cs.map (fun c => if jsIsWordChar c || jsIsSpace c then c else ' ')

/-- ASCII lower-casing of a character list, the `.toLowerCase()` idiom. -/
def jsLower (cs : List Char) : List Char :=
  cs.map Char.toLower

/-- Every character of every field produced by `wsFieldsAux` comes from
the pending run or from the input. -/
theorem wsFieldsAux_chars (cs : List Char) :
    ∀ cur, ∀ w ∈ wsFieldsAux cur cs, ∀ ch ∈ w.data, ch ∈ cur ∨ ch ∈ cs := by
  induction cs with
  | nil =>
    intro cur w hw ch hch
    rw [wsFieldsAux] at hw
    split at hw
    · simp at hw
    · simp only [List.mem_singleton] at hw
      subst hw
      exact Or.inl (by simpa using hch)
  | cons c rest ih =>
    intro cur w hw ch hch
    rw [wsFieldsAux] at hw
    split at hw
    · rcases List.mem_append.mp hw with hw' | hw'
      · split at hw'
        · simp at hw'
        · simp only [List.mem_singleton] at hw'
          subst hw'
          exact Or.inl (by simpa using hch)
      · rcases ih [] w hw' ch hch with h | h
        · simp at h
        · exact Or.inr (List.mem_cons_of_mem c h)
    · rcases ih (c :: cur) w hw ch hch with h | h
      · rcases List.mem_cons.mp h with hceq | h'
        · exact Or.inr (by rw [hceq]; exact List.mem_cons_self c rest)
        · exact Or.inl h'
      · exact Or.inr (List.mem_cons_of_mem c h)

/-- Every character of every token of `jsSplitWs` is a character of the
input. -/
theorem jsSplitWs_chars (cs : List Char) :
    ∀ w ∈ jsSplitWs cs, ∀ ch ∈ w.data, ch ∈ cs := by
  intro w hw ch hch
  cases cs with
  | nil =>
    simp only [jsSplitWs, List.mem_singleton] at hw
    subst hw
    simp at hch
  | cons c rest =>
    rw [jsSplitWs] at hw
    rcases List.mem_append.mp hw with hw' | hw'
    · rcases List.mem_append.mp hw' with hw'' | hw''
      · split at hw''
        · simp only [List.mem_singleton] at hw''
          subst hw''
          simp at hch
        · simp at hw''
      · rcases wsFieldsAux_chars (c :: rest) [] w hw'' ch hch with h | h
        · simp at h
        · exact h
    · split at hw'
      · simp only [List.mem_singleton] at hw'
        subst hw'
        simp at hch
      · simp at hw'

/-- Explicit form of `Char.ofNat` at a valid code point. -/
theorem charToNat_ofNat_valid (m : Nat) (h : m.isValidChar) :
    (Char.ofNat m).toNat = m := by
  unfold Char.ofNat
  rw [dif_pos h]
  rfl

/-- ASCII lower-casing is idempotent. -/
theorem charToLower_idem (c : Char) :
    Char.toLower (Char.toLower c) = Char.toLower c := by
  unfold Char.toLower
  by_cases h : c.toNat ≥ 65 ∧ c.toNat ≤ 90
  · rw [if_pos h]
    have hv : (c.toNat + 32).isValidChar := Or.inl (by omega)
    rw [charToNat_ofNat_valid _ hv]
    have hn : ¬(c.toNat + 32 ≥ 65 ∧ c.toNat + 32 ≤ 90) := by omega
    rw [if_neg hn]
  · rw [if_neg h, if_neg h]

/-- Characters surviving `jsNormalizeWord ∘ jsLower` are fixed by
further lower-casing. -/
theorem normLower_chars_fixed (cs : List Char) :
    ∀ ch ∈ jsNormalizeWord (jsLower cs), Char.toLower ch = ch := by
  intro ch hch
  unfold jsNormalizeWord jsLower at hch
  rw [List.map_map] at hch
  rcases List.mem_map.mp hch with ⟨c, _, rfl⟩
  dsimp only [Function.comp]
  split
  · exact charToLower_idem c
  · rfl

/-!
## Regex captures used by the Newegg search parser
-/

/-- JavaScript `s.trim()`. -/
def jsTrim (s : String) : String :=
  String.mk (((s.data.dropWhile jsIsSpace).reverse.dropWhile jsIsSpace).reverse)

/-- JavaScript `s.toLowerCase()` on a string. -/
def jsLowerStr (s : String) : String :=
  String.mk (jsLower s.data)

/-- Leftmost match of `/\/p\/([^/?]+)/`: the first nonempty run after a
`/p/` segment, stopping at `/` or `?`. -/
def pSegCapture : List Char → Option (List Char)
  | '/' :: 'p' :: '/' :: rest =>
    let run := rest.takeWhile (fun c => c ≠ '/' && c ≠ '?')
    if run.isEmpty then pSegCapture ('p' :: '/' :: rest) else some run
  | _ :: rest => pSegCapture rest
  | [] => none

/-- Leftmost match of `/\$?([\d,]+)\.?(\d{0,2})/`: group 1 is the first
maximal run of digits and commas, group 2 up to two digits after an
optional dot. -/
def neweggPriceCapture : List Char → Option (List Char × List Char)
  | [] => none
  | c :: rest =>
    if c.isDigit || c = ',' then
      let g1 := (c :: rest).takeWhile (fun d => d.isDigit || d = ',')
      let after := (c :: rest).dropWhile (fun d => d.isDigit || d = ',')
      let g2 :=
        match after with
        | '.' :: t => (t.takeWhile Char.isDigit).take 2
        | _ => []
      some (g1, g2)
    else neweggPriceCapture rest

/-- Leftmost match of `/\$([\d.]+)/`: the run of digits and dots right
after the first dollar sign that is followed by such a character. -/
def dollarCapture : List Char → Option (List Char)
  | [] => none
  | '$' :: rest =>
    let run := rest.takeWhile (fun d => d.isDigit || d = '.')
    if run.isEmpty then dollarCapture rest else some run
  | _ :: rest => dollarCapture rest

/-- Tail test for `/([\d.]+)\s*out of\s*5/i` after the captured group:
optional whitespace, `out of` case-insensitively, optional whitespace,
then `5`. -/
def outOfFiveAfter (cs : List Char) : Bool :=
  match cs.dropWhile jsIsSpace with
  | o :: u :: t :: sp :: o2 :: f :: rest =>
    if o.toLower = 'o' && u.toLower = 'u' && t.toLower = 't' && sp = ' ' &&
        o2.toLower = 'o' && f.toLower = 'f' then
      match rest.dropWhile jsIsSpace with
      | '5' :: _ => true
      | _ => false
    else false
  | _ => false

/-- Leftmost capture of `/([\d.]+)\s*out of\s*5/i`. -/
def ratingCapture : List Char → Option (List Char)
  | [] => none
  | c :: rest =>
    if c.isDigit || c = '.' then
      let run := (c :: rest).takeWhile (fun d => d.isDigit || d = '.')
      let after := (c :: rest).dropWhile (fun d => d.isDigit || d = '.')
      if outOfFiveAfter after then some run else ratingCapture rest
    else ratingCapture rest

/-- Leftmost capture of `/\(?\s*([\d,]+)\s*\)?/`: the first maximal run
of digits and commas. -/
def commaDigitRun : List Char → Option (List Char)
  | [] => none
  | c :: rest =>
    if c.isDigit || c = ',' then
      some ((c :: rest).takeWhile (fun d => d.isDigit || d = ','))
    else commaDigitRun rest

/-- Key-term extraction from a title (newegg_search_parser.js lines
155–163): lowercase, replace non-word characters by spaces, split on
whitespace, keep tokens longer than two characters, first ten. -/
def jsKeyTerms (title : String) : List String :=
  ((jsSplitWs (jsNormalizeWord (jsLower title.data))).filter
    (fun w => w.length > 2)).take 10

/-!
## Newegg search parser (src/extension/content/parsers/newegg_search_parser.js)

Each result-card element is modelled by the observations the parser
makes of it: the text/attributes of the sub-elements each of its
`querySelector` calls would return (`none` = no such sub-element).
-/

/-- Title link sub-element: `.item-title, a.item-title, a[title]`. -/
structure NwTitleLink where
  text : String
  titleAttr : Option String
  href : String
deriving Repr, DecidableEq

/-- Rating sub-element: `aria-label` attribute and `title` property. -/
structure NwRatingEl where
  aria : Option String
  titleProp : String
deriving Repr, DecidableEq

/-- Brand sub-element: `alt` (for images) and text content. -/
structure NwBrandEl where
  alt : Option String
  text : String
deriving Repr, DecidableEq

/-- Image sub-element: `src` property and `data-src` attribute. -/
structure NwImg where
  src : String
  dataSrc : Option String
deriving Repr, DecidableEq

/-- One Newegg result-card element, as observed by the parser.
`conditionText` records any condition text present on the card; the
parser never queries it. -/
structure NeweggItem where
  titleLink : Option NwTitleLink
  priceStrongText : Option String
  priceSupText : Option String
  priceFallbackText : Option String
  shippingText : Option String
  ratingEl : Option NwRatingEl
  reviewText : Option String
  brandEl : Option NwBrandEl
  img : Option NwImg
  promoText : Option String
  stockText : Option String
  conditionText : Option String
deriving Repr, DecidableEq

/-- Initial listing literal of `parseItem` (lines 39–53). -/
def NeweggSearchParser.initListing (now : Nat) (capturedAt : String)
    (index : Nat) : Listing where
  id := "newegg-" ++ toString now ++ "-" ++ toString index
  source := "newegg"
  title := some ""
  url := some ""
  image_url := none
  price := { value := some 0, currency := "USD" }
  condition := "new"
  shipping := { cost := none, eta_days := none, method := "unknown" }
  returns := { available := none, window_days := none, unknown := true }
  seller := { name := none, rating := none, reviews := none, is_official := none }
  specs := { brand := none, model := none, key_terms := [] }
  signals := { sponsored := false, low_stock := none }
  raw := { captured_at := capturedAt, notes := none }

/-- Title/URL block of `parseItem` (lines 55–66). -/
def NeweggSearchParser.stepTitle (el : NeweggItem) (l : Listing) : Listing :=
  match el.titleLink with
  | none => l
  | some tl =>
    let t := jsOrS (some (jsTrim tl.text)) tl.titleAttr
    let id' :=
      match pSegCapture tl.href.data with
      | some seg => "newegg-" ++ String.mk seg
      | none => l.id
    { l with title := t, url := some tl.href, id := id' }

/-- Price block of `parseItem` (lines 68–85). -/
def NeweggSearchParser.stepPrice (el : NeweggItem) (l : Listing) : Listing :=
  match el.priceStrongText with
  | some strongText =>
    let dollars :=
      let d := strongText.data.filter (fun c => c ≠ ',' && c ≠ '$')
      if d.isEmpty then ['0'] else d
    let cents :=
      match el.priceSupText with
      | some supText =>
        let cd := supText.data.filter Char.isDigit
        if cd.isEmpty then ['0', '0'] else cd
      | none => ['0', '0']
    { l with price := { l.price with
        value := jsParseFloat (String.mk (dollars ++ '.' :: cents)) } }
  | none =>
    match el.priceFallbackText with
    | none => l
    | some ptext =>
      match neweggPriceCapture ptext.data with
      | none => l
      | some (g1, g2) =>
        { l with price := { l.price with
            value := jsParseFloat (String.mk (stripCommas g1 ++ '.' ::
              (if g2.isEmpty then ['0', '0'] else g2))) } }

/-- Shipping block of `parseItem` (lines 87–99). -/
def NeweggSearchParser.stepShipping (el : NeweggItem) (l : Listing) : Listing :=
  match el.shippingText with
  | none => l
  | some st =>
    let lower := jsLowerStr st
    if jsIncludes lower "free" then
      { l with shipping := { l.shipping with cost := some 0 } }
    else
      match dollarCapture lower.data with
      | some run =>
        { l with shipping := { l.shipping with
            cost := jsParseFloat (String.mk run) } }
      | none => l

/-- Rating block of `parseItem` (lines 101–111). -/
def NeweggSearchParser.stepRating (el : NeweggItem) (l : Listing) : Listing :=
  match el.ratingEl with
  | none => l
  | some r =>
    let ariaLabel := (jsOrS r.aria (some r.titleProp)).getD ""
    match ratingCapture ariaLabel.data with
    | some run =>
      { l with seller := { l.seller with
          rating := (jsParseFloat (String.mk run)).map (fun q => q / 5 * 100) } }
    | none => l

/-- Review-count block of `parseItem` (lines 113–120). -/
def NeweggSearchParser.stepReviews (el : NeweggItem) (l : Listing) : Listing :=
  match el.reviewText with
  | none => l
  | some rt =>
    match commaDigitRun rt.data with
    | some run =>
      { l with seller := { l.seller with
          reviews := jsParseInt (String.mk (stripCommas run)) } }
    | none => l

/-- Brand block of `parseItem` (lines 122–133), including the
first-word-of-title fallback. -/
def NeweggSearchParser.stepBrand (el : NeweggItem) (l : Listing) : Listing :=
  let lb :=
    match el.brandEl with
    | none => l
    | some b =>
      { l with specs := { l.specs with
          brand := jsOrS b.alt (some (jsTrim b.text)) } }
  if !jsTruthyS lb.specs.brand && jsTruthyS lb.title then
    let words := jsSplitWs ((lb.title.getD "").data)
    if words.length > 0 then
      { lb with specs := { lb.specs with brand := some (words.headD "") } }
    else lb
  else lb

/-- Image block of `parseItem` (lines 136–139). -/
def NeweggSearchParser.stepImage (el : NeweggItem) (l : Listing) : Listing :=
  match el.img with
  | none => l
  | some im => { l with image_url := jsOrS (some im.src) im.dataSrc }

/-- Promo/sponsored block of `parseItem` (lines 142–146). -/
def NeweggSearchParser.stepPromo (el : NeweggItem) (l : Listing) : Listing :=
  match el.promoText with
  | none => l
  | some pt =>
    let lower := jsLowerStr pt
    { l with signals := { l.signals with
        sponsored := jsIncludes lower "sponsored" || jsIncludes lower "ad" } }

/-- Stock block of `parseItem` (lines 149–153). -/
def NeweggSearchParser.stepStock (el : NeweggItem) (l : Listing) : Listing :=
  match el.stockText with
  | none => l
  | some st =>
    let lower := jsLowerStr st
    { l with signals := { l.signals with
        low_stock := some (jsIncludes lower "limited" || jsIncludes lower "few left") } }

/-- Key-terms block of `parseItem` (lines 155–163). -/
def NeweggSearchParser.stepKeyTerms (l : Listing) : Listing :=
  if jsTruthyS l.title then
    { l with specs := { l.specs with key_terms := jsKeyTerms (l.title.getD "") } }
  else l

/-- Returns-policy block of `parseItem` (lines 165–167). -/
def NeweggSearchParser.stepReturns (l : Listing) : Listing :=
  { l with returns := { l.returns with
      available := some true, window_days := some 30 } }

/-- Embedding of `NeweggSearchParser.parseItem`: the blocks of the
source function applied in source order to the initial listing. -/
def NeweggSearchParser.parseItem (el : NeweggItem) (now : Nat)
    (capturedAt : String) (index : Nat) : Listing :=
  NeweggSearchParser.stepReturns
    (NeweggSearchParser.stepKeyTerms
      (NeweggSearchParser.stepStock el
        (NeweggSearchParser.stepPromo el
          (NeweggSearchParser.stepImage el
            (NeweggSearchParser.stepBrand el
              (NeweggSearchParser.stepReviews el
                (NeweggSearchParser.stepRating el
                  (NeweggSearchParser.stepShipping el
                    (NeweggSearchParser.stepPrice el
                      (NeweggSearchParser.stepTitle el
                        (NeweggSearchParser.initListing now capturedAt index)))))))))))

/-- Embedding of `NeweggSearchParser.scrape`: parse each candidate
element, keep those with truthy title and url, first twenty.
`itemCells` are the `.item-cell, .item-container` matches and
`fallbackItems` the fallback-selector matches used when the first
list is empty. -/
def NeweggSearchParser.scrape (itemCells fallbackItems : List NeweggItem)
    (now : Nat) (capturedAt : String) : List Listing :=
  let items := if itemCells.length > 0 then itemCells else fallbackItems
  (items.enum.filterMap (fun p =>
    let l := NeweggSearchParser.parseItem p.2 now capturedAt p.1
    if jsTruthyS l.title && jsTruthyS l.url then some l else none)).take 20

/-!
## Field-preservation lemmas for the Newegg parse pipeline
-/

theorem NeweggSearchParser.stepTitle_keeps (el : NeweggItem) (l : Listing) :
    (NeweggSearchParser.stepTitle el l).returns = l.returns ∧
      (NeweggSearchParser.stepTitle el l).condition = l.condition ∧
      (NeweggSearchParser.stepTitle el l).specs.key_terms = l.specs.key_terms := by
  unfold NeweggSearchParser.stepTitle
  repeat' apply And.intro
  all_goals split
  all_goals try split
  all_goals try split
  all_goals try split
  all_goals simp

theorem NeweggSearchParser.stepPrice_keeps (el : NeweggItem) (l : Listing) :
    (NeweggSearchParser.stepPrice el l).returns = l.returns ∧
      (NeweggSearchParser.stepPrice el l).condition = l.condition ∧
      (NeweggSearchParser.stepPrice el l).title = l.title ∧
      (NeweggSearchParser.stepPrice el l).specs.key_terms = l.specs.key_terms := by
  unfold NeweggSearchParser.stepPrice
  repeat' apply And.intro
  all_goals split
  all_goals try split
  all_goals try split
  all_goals try split
  all_goals simp

theorem NeweggSearchParser.stepShipping_keeps (el : NeweggItem) (l : Listing) :
    (NeweggSearchParser.stepShipping el l).returns = l.returns ∧
      (NeweggSearchParser.stepShipping el l).condition = l.condition ∧
      (NeweggSearchParser.stepShipping el l).title = l.title ∧
      (NeweggSearchParser.stepShipping el l).specs.key_terms = l.specs.key_terms := by
  unfold NeweggSearchParser.stepShipping
  cases h : el.shippingText with
  | none => simp
  | some st =>
    dsimp only
    split_ifs with hf
    · simp
    · cases hd : dollarCapture (jsLowerStr st).data <;> simp [hd]

theorem NeweggSearchParser.stepRating_keeps (el : NeweggItem) (l : Listing) :
    (NeweggSearchParser.stepRating el l).returns = l.returns ∧
      (NeweggSearchParser.stepRating el l).condition = l.condition ∧
      (NeweggSearchParser.stepRating el l).title = l.title ∧
      (NeweggSearchParser.stepRating el l).specs.key_terms = l.specs.key_terms := by
  unfold NeweggSearchParser.stepRating
  cases h : el.ratingEl with
  | none => simp
  | some r =>
    cases hc : ratingCapture ((jsOrS r.aria (some r.titleProp)).getD "").data <;> simp [hc]

theorem NeweggSearchParser.stepReviews_keeps (el : NeweggItem) (l : Listing) :
    (NeweggSearchParser.stepReviews el l).returns = l.returns ∧
      (NeweggSearchParser.stepReviews el l).condition = l.condition ∧
      (NeweggSearchParser.stepReviews el l).title = l.title ∧
      (NeweggSearchParser.stepReviews el l).specs.key_terms = l.specs.key_terms := by
  unfold NeweggSearchParser.stepReviews
  repeat' apply And.intro
  all_goals split
  all_goals try split
  all_goals try split
  all_goals try split
  all_goals simp

theorem NeweggSearchParser.stepBrand_keeps (el : NeweggItem) (l : Listing) :
    (NeweggSearchParser.stepBrand el l).returns = l.returns ∧
      (NeweggSearchParser.stepBrand el l).condition = l.condition ∧
      (NeweggSearchParser.stepBrand el l).title = l.title ∧
      (NeweggSearchParser.stepBrand el l).specs.key_terms = l.specs.key_terms := by
  unfold NeweggSearchParser.stepBrand
  cases h : el.brandEl <;> dsimp only <;> split_ifs <;> simp

theorem NeweggSearchParser.stepImage_keeps (el : NeweggItem) (l : Listing) :
    (NeweggSearchParser.stepImage el l).returns = l.returns ∧
      (NeweggSearchParser.stepImage el l).condition = l.condition ∧
      (NeweggSearchParser.stepImage el l).title = l.title ∧
      (NeweggSearchParser.stepImage el l).specs.key_terms = l.specs.key_terms := by
  unfold NeweggSearchParser.stepImage
  repeat' apply And.intro
  all_goals split
  all_goals try split
  all_goals try split
  all_goals try split
  all_goals simp

theorem NeweggSearchParser.stepPromo_keeps (el : NeweggItem) (l : Listing) :
    (NeweggSearchParser.stepPromo el l).returns = l.returns ∧
      (NeweggSearchParser.stepPromo el l).condition = l.condition ∧
      (NeweggSearchParser.stepPromo el l).title = l.title ∧
      (NeweggSearchParser.stepPromo el l).specs.key_terms = l.specs.key_terms := by
  unfold NeweggSearchParser.stepPromo
  repeat' apply And.intro
  all_goals split
  all_goals try split
  all_goals try split
  all_goals try split
  all_goals simp

theorem NeweggSearchParser.stepStock_keeps (el : NeweggItem) (l : Listing) :
    (NeweggSearchParser.stepStock el l).returns = l.returns ∧
      (NeweggSearchParser.stepStock el l).condition = l.condition ∧
      (NeweggSearchParser.stepStock el l).title = l.title ∧
      (NeweggSearchParser.stepStock el l).specs.key_terms = l.specs.key_terms := by
  unfold NeweggSearchParser.stepStock
  repeat' apply And.intro
  all_goals split
  all_goals try split
  all_goals try split
  all_goals try split
  all_goals simp

theorem NeweggSearchParser.stepKeyTerms_keeps (l : Listing) :
    (NeweggSearchParser.stepKeyTerms l).returns = l.returns ∧
      (NeweggSearchParser.stepKeyTerms l).condition = l.condition ∧
      (NeweggSearchParser.stepKeyTerms l).title = l.title := by
  unfold NeweggSearchParser.stepKeyTerms
  repeat' apply And.intro
  all_goals split
  all_goals try split
  all_goals try split
  all_goals try split
  all_goals simp

theorem NeweggSearchParser.stepReturns_keeps (l : Listing) :
    (NeweggSearchParser.stepReturns l).condition = l.condition ∧
      (NeweggSearchParser.stepReturns l).title = l.title ∧
      (NeweggSearchParser.stepReturns l).specs.key_terms = l.specs.key_terms ∧
      (NeweggSearchParser.stepReturns l).returns =
        { available := some true, window_days := some 30,
          unknown := l.returns.unknown } := by
  unfold NeweggSearchParser.stepReturns
  simp

theorem NeweggSearchParser.pipeline_keeps (el : NeweggItem) (l : Listing) :
    (NeweggSearchParser.stepStock el (NeweggSearchParser.stepPromo el
      (NeweggSearchParser.stepImage el (NeweggSearchParser.stepBrand el
        (NeweggSearchParser.stepReviews el (NeweggSearchParser.stepRating el
          (NeweggSearchParser.stepShipping el (NeweggSearchParser.stepPrice el
            (NeweggSearchParser.stepTitle el l))))))))).returns = l.returns ∧
    (NeweggSearchParser.stepStock el (NeweggSearchParser.stepPromo el
      (NeweggSearchParser.stepImage el (NeweggSearchParser.stepBrand el
        (NeweggSearchParser.stepReviews el (NeweggSearchParser.stepRating el
          (NeweggSearchParser.stepShipping el (NeweggSearchParser.stepPrice el
            (NeweggSearchParser.stepTitle el l))))))))).condition = l.condition ∧
    (NeweggSearchParser.stepStock el (NeweggSearchParser.stepPromo el
      (NeweggSearchParser.stepImage el (NeweggSearchParser.stepBrand el
        (NeweggSearchParser.stepReviews el (NeweggSearchParser.stepRating el
          (NeweggSearchParser.stepShipping el (NeweggSearchParser.stepPrice el
            (NeweggSearchParser.stepTitle el l))))))))).specs.key_terms =
      l.specs.key_terms := by
  refine ⟨?_, ?_, ?_⟩
  · rw [(NeweggSearchParser.stepStock_keeps el _).1,
      (NeweggSearchParser.stepPromo_keeps el _).1,
      (NeweggSearchParser.stepImage_keeps el _).1,
      (NeweggSearchParser.stepBrand_keeps el _).1,
      (NeweggSearchParser.stepReviews_keeps el _).1,
      (NeweggSearchParser.stepRating_keeps el _).1,
      (NeweggSearchParser.stepShipping_keeps el _).1,
      (NeweggSearchParser.stepPrice_keeps el _).1,
      (NeweggSearchParser.stepTitle_keeps el _).1]
  · rw [(NeweggSearchParser.stepStock_keeps el _).2.1,
      (NeweggSearchParser.stepPromo_keeps el _).2.1,
      (NeweggSearchParser.stepImage_keeps el _).2.1,
      (NeweggSearchParser.stepBrand_keeps el _).2.1,
      (NeweggSearchParser.stepReviews_keeps el _).2.1,
      (NeweggSearchParser.stepRating_keeps el _).2.1,
      (NeweggSearchParser.stepShipping_keeps el _).2.1,
      (NeweggSearchParser.stepPrice_keeps el _).2.1,
      (NeweggSearchParser.stepTitle_keeps el _).2.1]
  · rw [(NeweggSearchParser.stepStock_keeps el _).2.2.2,
      (NeweggSearchParser.stepPromo_keeps el _).2.2.2,
      (NeweggSearchParser.stepImage_keeps el _).2.2.2,
      (NeweggSearchParser.stepBrand_keeps el _).2.2.2,
      (NeweggSearchParser.stepReviews_keeps el _).2.2.2,
      (NeweggSearchParser.stepRating_keeps el _).2.2.2,
      (NeweggSearchParser.stepShipping_keeps el _).2.2.2,
      (NeweggSearchParser.stepPrice_keeps el _).2.2.2,
      (NeweggSearchParser.stepTitle_keeps el _).2.2]

/-!
## Claims C9 and C10
-/

/-- C9: every Listing produced by the Newegg search parser has
`returns.available = true` and `returns.window_days = 30` assigned
unconditionally, while `returns.unknown` simultaneously remains `true`
— the unknown flag is never cleared when the hardcoded policy is
asserted. -/
theorem claim_C9 (el : NeweggItem) (now : Nat) (capturedAt : String)
    (index : Nat) :
    (NeweggSearchParser.parseItem el now capturedAt index).returns =
      { available := some true, window_days := some 30, unknown := true } := by
  unfold NeweggSearchParser.parseItem
  rw [(NeweggSearchParser.stepReturns_keeps _).2.2.2,
    (NeweggSearchParser.stepKeyTerms_keeps _).1,
    (NeweggSearchParser.pipeline_keeps el _).1]
  rfl

/-- C10: every Listing produced by the Newegg search parser has
`condition = "new"`, regardless of any condition text present on the
result card — the condition-classification step is never applied to
Newegg search results. -/
theorem claim_C10 (el : NeweggItem) (now : Nat) (capturedAt : String)
    (index : Nat) :
    (NeweggSearchParser.parseItem el now capturedAt index).condition = "new" := by
  unfold NeweggSearchParser.parseItem
  rw [(NeweggSearchParser.stepReturns_keeps _).1,
    (NeweggSearchParser.stepKeyTerms_keeps _).2.1,
    (NeweggSearchParser.pipeline_keeps el _).2.1]
  rfl

/-!
## Claim C7
-/

/-- Concrete Newegg result card whose title repeats a token. -/
def c7Item : NeweggItem where
  titleLink := some { text := "USB USB Cable", titleAttr := none, href := "http://x" }
  priceStrongText := none
  priceSupText := none
  priceFallbackText := none
  shippingText := none
  ratingEl := none
  reviewText := none
  brandEl := none
  img := none
  promoText := none
  stockText := none
  conditionText := none

/-- Counterexample to C7 as stated: the Newegg parser does not remove
duplicate tokens from `specs.key_terms`. -/
theorem claim_C7_counterexample :
    ((NeweggSearchParser.scrape [c7Item] [] 0 "").map
      (fun l => l.specs.key_terms)) = [["usb", "usb", "cable"]] ∧
      ¬ (["usb", "usb", "cable"] : List String).Nodup := by
  constructor
  · rfl
  · decide

/-- C7 (amended): `specs.key_terms` of every Listing produced by the
Newegg search parser is the ordered sequence of lowercase tokens of the
listing title (non-word characters replaced by spaces, tokens longer
than two characters, first ten, first-seen order preserved), with
duplicates KEPT rather than removed; for a falsy title it is empty. -/
theorem claim_C7_amended :
    (∀ (el : NeweggItem) (now : Nat) (capturedAt : String) (index : Nat),
      (NeweggSearchParser.parseItem el now capturedAt index).specs.key_terms =
        (if jsTruthyS (NeweggSearchParser.parseItem el now capturedAt index).title then
          jsKeyTerms
            ((NeweggSearchParser.parseItem el now capturedAt index).title.getD "")
        else [])) ∧
    (∀ t : String,
      (jsKeyTerms t).Sublist (jsSplitWs (jsNormalizeWord (jsLower t.data)))) ∧
    (∀ t : String, ∀ w ∈ jsKeyTerms t, 2 < w.length ∧ jsLowerStr w = w) ∧
    (∀ t : String, (jsKeyTerms t).length ≤ 10) := by
  refine ⟨?_, ?_, ?_, ?_⟩
  · intro el now capturedAt index
    unfold NeweggSearchParser.parseItem
    rw [(NeweggSearchParser.stepReturns_keeps _).2.2.1,
      (NeweggSearchParser.stepReturns_keeps _).2.1,
      (NeweggSearchParser.stepKeyTerms_keeps _).2.2]
    unfold NeweggSearchParser.stepKeyTerms
    split_ifs with h
    · simp
    · rw [(NeweggSearchParser.pipeline_keeps el _).2.2]
      rfl
  · intro t
    unfold jsKeyTerms
    exact (List.take_sublist _ _).trans (List.filter_sublist _)
  · intro t w hw
    have hw' : w ∈ (jsSplitWs (jsNormalizeWord (jsLower t.data))).filter
        (fun w => w.length > 2) := List.mem_of_mem_take hw
    obtain ⟨hmem, hlen⟩ := List.mem_filter.mp hw'
    refine ⟨by simpa using hlen, ?_⟩
    have hfix : ∀ ch ∈ w.data, Char.toLower ch = ch := by
      intro ch hch
      exact normLower_chars_fixed t.data ch
        (jsSplitWs_chars _ w hmem ch hch)
    rcases w with ⟨d⟩
    have hmap : d.map Char.toLower = d := by
      rw [List.map_congr_left hfix]
      simp
    unfold jsLowerStr jsLower
    rw [show String.data ⟨d⟩ = d from rfl, hmap]
  · intro t
    exact List.length_take_le _ _

/-!
## Generic search parser (src/extension/content/parsers/generic_search_page.js)
-/

/-- Replacement of the first occurrence of `pat`, as JavaScript
`s.replace(pat, '')` with a string pattern. -/
def replaceFirst (cs pat : List Char) : List Char :=
  match cs with
  | [] => []
  | c :: t =>
    if pat.isPrefixOf (c :: t) then (c :: t).drop pat.length
    else c :: replaceFirst t pat

/-- Embedding of `GenericSearchParser.detectSource`: well-known host
names, else the first dot-separated label with a leading `www.`
stripped. -/
def GenericSearchParser.detectSource (hostname : String) : String :=
  let h := jsLowerStr hostname
  if jsIncludes h "ebay" then "ebay"
  else if jsIncludes h "newegg" then "newegg"
  else if jsIncludes h "amazon" then "amazon"
  else if jsIncludes h "bestbuy" then "bestbuy"
  else String.mk ((replaceFirst h.data "www.".data).takeWhile (fun c => c ≠ '.'))

/-- Leftmost capture of `/\$?([\d,]+\.?\d*)/`: first maximal run of
digits and commas, with an optional dot-fraction appended. -/
def priceCapture : List Char → Option (List Char)
  | [] => none
  | c :: rest =>
    if c.isDigit || c = ',' then
      let g1 := (c :: rest).takeWhile (fun d => d.isDigit || d = ',')
      let after := (c :: rest).dropWhile (fun d => d.isDigit || d = ',')
      let frac :=
        match after with
        | '.' :: t => '.' :: t.takeWhile Char.isDigit
        | _ => []
      some (g1 ++ frac)
    else priceCapture rest

/-- Anchor sub-element of a result card:
`a[href*="http"], a.item-title, a[class*="product"]`. -/
structure GenLink where
  text : String
  href : String
deriving Repr, DecidableEq

/-- One generic search-result element, as observed by
`parseListingElement`. -/
structure GenElem where
  link : Option GenLink
  headingText : Option String
  priceText : Option String
  shippingText : Option String
  conditionText : Option String
  textContent : String
  hasSponsoredEl : Bool
  imgSrc : Option String
deriving Repr, DecidableEq

/-- Initial listing literal of `parseListingElement` (lines 214–227). -/
def GenericSearchParser.initListing (hostname : String) (now : Nat)
    (capturedAt : String) (index : Nat) : Listing where
  id := "generic-" ++ toString now ++ "-" ++ toString index
  source := GenericSearchParser.detectSource hostname
  title := some ""
  url := some ""
  image_url := none
  price := { value := some 0, currency := "USD" }
  condition := "unknown"
  shipping := { cost := none, eta_days := none, method := "unknown" }
  returns := { available := none, window_days := none, unknown := true }
  seller := { name := none, rating := none, reviews := none, is_official := none }
  specs := { brand := none, model := none, key_terms := [] }
  signals := { sponsored := false, low_stock := none }
  raw := { captured_at := capturedAt, notes := none }

/-- Title & URL block of `parseListingElement` (lines 229–234). -/
def GenericSearchParser.gStepTitle (el : GenElem) (l : Listing) : Listing :=
  match el.link with
  | none => l
  | some lk =>
    { l with
        title := jsOrS (some (jsTrim lk.text)) (el.headingText.map jsTrim)
        url := some lk.href }

/-- Price block of `parseListingElement` (lines 236–244). -/
def GenericSearchParser.gStepPrice (el : GenElem) (l : Listing) : Listing :=
  match el.priceText with
  | none => l
  | some pt =>
    match priceCapture pt.data with
    | some cap =>
      { l with price := { l.price with
          value := jsParseFloat (String.mk (stripCommas cap)) } }
    | none => l

/-- Shipping block of `parseListingElement` (lines 246–258). -/
def GenericSearchParser.gStepShipping (el : GenElem) (l : Listing) : Listing :=
  match el.shippingText with
  | none => l
  | some st =>
    let lower := jsLowerStr st
    if jsIncludes lower "free" then
      { l with shipping := { l.shipping with cost := some 0 } }
    else
      match dollarCapture lower.data with
      | some run =>
        { l with shipping := { l.shipping with
            cost := jsParseFloat (String.mk run) } }
      | none => l

/-- Condition block of `parseListingElement` (lines 260–267): only the
substrings `new`, `refurb`, `used` are checked, in that order; no match
leaves the condition as it was. -/
def GenericSearchParser.gStepCondition (el : GenElem) (l : Listing) : Listing :=
  match el.conditionText with
  | none => l
  | some ct =>
    let lower := jsLowerStr ct
    if jsIncludes lower "new" then { l with condition := "new" }
    else if jsIncludes lower "refurb" then { l with condition := "refurb" }
    else if jsIncludes lower "used" then { l with condition := "used" }
    else l

/-- Sponsored block of `parseListingElement` (lines 269–272). -/
def GenericSearchParser.gStepSponsored (el : GenElem) (l : Listing) : Listing :=
  { l with signals := { l.signals with
      sponsored := jsIncludes (jsLowerStr el.textContent) "sponsored" ||
        el.hasSponsoredEl } }

/-- Image block of `parseListingElement` (lines 274–278). -/
def GenericSearchParser.gStepImage (el : GenElem) (l : Listing) : Listing :=
  match el.imgSrc with
  | none => l
  | some src => { l with image_url := some src }

/-- Embedding of `GenericSearchParser.parseListingElement`: the blocks
of the source function applied in source order. -/
def GenericSearchParser.parseListingElement (hostname : String)
    (el : GenElem) (now : Nat) (capturedAt : String) (index : Nat) : Listing :=
  GenericSearchParser.gStepImage el
    (GenericSearchParser.gStepSponsored el
      (GenericSearchParser.gStepCondition el
        (GenericSearchParser.gStepShipping el
          (GenericSearchParser.gStepPrice el
            (GenericSearchParser.gStepTitle el
              (GenericSearchParser.initListing hostname now capturedAt index))))))

/-- The listing-container selector cascade of `scrapeResults`
(lines 184–192). -/
def listingSelectors : List String :=
  [".srp-results .s-item", ".item-cells-wrap .item-cell",
   "[data-testid=\"product-card\"]", ".product-card", ".search-result-item",
   "[class*=\"product-listing\"]", "[class*=\"search-item\"]"]

/-- First selector whose query yields a non-empty element list
(lines 194–202). -/
def firstNonEmptyResults (sels : List String)
    (q : String → List GenElem) : List GenElem :=
  match sels with
  | [] => []
  | s :: rest => if (q s).length > 0 then q s else firstNonEmptyResults rest q

/-- Document view used by `scrapeResults`: the page hostname and the
result list of each `querySelectorAll` call. -/
structure GenDoc where
  hostname : String
  selResults : String → List GenElem

/-- Embedding of `GenericSearchParser.scrapeResults`: first matching
container selector, first twenty elements, parsed, then filtered to
those with truthy title and url. -/
def GenericSearchParser.scrapeResults (doc : GenDoc) (now : Nat)
    (capturedAt : String) : List Listing :=
  let els := firstNonEmptyResults listingSelectors doc.selResults
  ((els.take 20).enum.map (fun p =>
    GenericSearchParser.parseListingElement doc.hostname p.2 now capturedAt
      p.1)).filter (fun l => jsTruthyS l.title && jsTruthyS l.url)

/-!
## Claim C4
-/

/-- C4: both the Newegg-specific scrape and the generic `scrapeResults`
return at most 20 Listings, and every returned Listing has a truthy
(non-empty) title and url — elements yielding empty title/url are
dropped rather than raising. -/
theorem claim_C4 :
    (∀ (itemCells fallbackItems : List NeweggItem) (now : Nat)
        (capturedAt : String),
      (NeweggSearchParser.scrape itemCells fallbackItems now capturedAt).length ≤ 20 ∧
        ∀ l ∈ NeweggSearchParser.scrape itemCells fallbackItems now capturedAt,
          jsTruthyS l.title = true ∧ jsTruthyS l.url = true) ∧
    (∀ (doc : GenDoc) (now : Nat) (capturedAt : String),
      (GenericSearchParser.scrapeResults doc now capturedAt).length ≤ 20 ∧
        ∀ l ∈ GenericSearchParser.scrapeResults doc now capturedAt,
          jsTruthyS l.title = true ∧ jsTruthyS l.url = true) := by
  constructor
  · intro itemCells fallbackItems now capturedAt
    unfold NeweggSearchParser.scrape
    constructor
    · exact List.length_take_le _ _
    · intro l hl
      have hl' := List.mem_of_mem_take hl
      obtain ⟨p, -, hp⟩ := List.mem_filterMap.mp hl'
      dsimp only at hp
      by_cases hg : (jsTruthyS (NeweggSearchParser.parseItem p.2 now capturedAt p.1).title &&
          jsTruthyS (NeweggSearchParser.parseItem p.2 now capturedAt p.1).url) = true
      · rw [if_pos hg] at hp
        obtain rfl := Option.some.inj hp
        simpa using hg
      · rw [if_neg hg] at hp
        exact absurd hp (by simp)
  · intro doc now capturedAt
    unfold GenericSearchParser.scrapeResults
    constructor
    · refine le_trans (List.Sublist.length_le (List.filter_sublist _)) ?_
      rw [List.length_map, List.enum_length]
      exact List.length_take_le _ _
    · intro l hl
      have := (List.mem_filter.mp hl).2
      simpa using this

/-- Witness for C4 at a concrete one-element Newegg page and a concrete
empty generic page. -/
theorem claim_C4_witness :
    ((NeweggSearchParser.scrape [c7Item] [] 0 "").length ≤ 20 ∧
      ∀ l ∈ NeweggSearchParser.scrape [c7Item] [] 0 "",
        jsTruthyS l.title = true ∧ jsTruthyS l.url = true) ∧
    ((GenericSearchParser.scrapeResults ⟨"example.com", fun _ => []⟩ 0 "").length ≤ 20 ∧
      ∀ l ∈ GenericSearchParser.scrapeResults ⟨"example.com", fun _ => []⟩ 0 "",
        jsTruthyS l.title = true ∧ jsTruthyS l.url = true) :=
  ⟨claim_C4.1 [c7Item] [] 0 "", claim_C4.2 ⟨"example.com", fun _ => []⟩ 0 ""⟩

/-!
## Condition classification (C5)
-/

/-- Embedding of `GenericProductParser.parseCondition`
(generic_product_page.js lines 252–262). -/
def GenericProductParser.parseCondition (text : Option String) : String :=
  match text with
  | none => "unknown"
  | some t =>
    if t = "" then "unknown"
    else
      let lower := jsLowerStr t
      if jsIncludes lower "new" then "new"
      else if jsIncludes lower "refurb" || jsIncludes lower "renewed" then "refurb"
      else if jsIncludes lower "used" || jsIncludes lower "pre-owned" then "used"
      else "unknown"

/-- The substring test agrees with list infixhood. -/
theorem containsSub_iff (hay needle : List Char) :
    containsSub hay needle = true ↔ needle <:+: hay := by
  induction hay with
  | nil =>
    rw [containsSub]
    simp [List.isPrefixOf_iff_prefix]
  | cons c t ih =>
    rw [containsSub]
    simp [List.isPrefixOf_iff_prefix, ih, List.infix_cons_iff]

/-- A string containing `renewed` also contains `new`. -/
theorem includes_renewed_includes_new (s : String)
    (h : jsIncludes s "renewed" = true) : jsIncludes s "new" = true := by
  rw [jsIncludes, containsSub_iff] at h ⊢
  exact List.IsInfix.trans ⟨['r', 'e'], ['e', 'd'], rfl⟩ h

theorem GenericSearchParser.gStepTitle_condition (el : GenElem) (l : Listing) :
    (GenericSearchParser.gStepTitle el l).condition = l.condition := by
  unfold GenericSearchParser.gStepTitle
  split <;> simp

theorem GenericSearchParser.gStepPrice_condition (el : GenElem) (l : Listing) :
    (GenericSearchParser.gStepPrice el l).condition = l.condition := by
  unfold GenericSearchParser.gStepPrice
  split
  · simp
  · split <;> simp

theorem GenericSearchParser.gStepShipping_condition (el : GenElem) (l : Listing) :
    (GenericSearchParser.gStepShipping el l).condition = l.condition := by
  unfold GenericSearchParser.gStepShipping
  cases h : el.shippingText with
  | none => simp
  | some st =>
    dsimp only
    split_ifs with hf
    · simp
    · cases hd : dollarCapture (jsLowerStr st).data <;> simp [hd]

theorem GenericSearchParser.gStepSponsored_condition (el : GenElem) (l : Listing) :
    (GenericSearchParser.gStepSponsored el l).condition = l.condition := rfl

theorem GenericSearchParser.gStepImage_condition (el : GenElem) (l : Listing) :
    (GenericSearchParser.gStepImage el l).condition = l.condition := by
  unfold GenericSearchParser.gStepImage
  split <;> simp

/-- Condition field of a fully parsed generic search listing: the
three-way substring cascade applied to the card's condition text, with
`unknown` when there is no match or no condition element. -/
theorem parseListingElement_condition (hostname : String) (el : GenElem)
    (now : Nat) (capturedAt : String) (index : Nat) :
    (GenericSearchParser.parseListingElement hostname el now capturedAt
        index).condition =
      (match el.conditionText with
       | none => "unknown"
       | some ct =>
         if jsIncludes (jsLowerStr ct) "new" then "new"
         else if jsIncludes (jsLowerStr ct) "refurb" then "refurb"
         else if jsIncludes (jsLowerStr ct) "used" then "used"
         else "unknown") := by
  unfold GenericSearchParser.parseListingElement
  rw [GenericSearchParser.gStepImage_condition,
    GenericSearchParser.gStepSponsored_condition]
  have h3 : (GenericSearchParser.gStepShipping el
      (GenericSearchParser.gStepPrice el (GenericSearchParser.gStepTitle el
        (GenericSearchParser.initListing hostname now capturedAt
          index)))).condition = "unknown" := by
    rw [GenericSearchParser.gStepShipping_condition,
      GenericSearchParser.gStepPrice_condition,
      GenericSearchParser.gStepTitle_condition]
    rfl
  unfold GenericSearchParser.gStepCondition
  cases hc : el.conditionText with
  | none => simpa using h3
  | some ct =>
    dsimp only
    split_ifs <;> simp [h3]

theorem parseCondition_new (t : String)
    (h : jsIncludes (jsLowerStr t) "new" = true) :
    GenericProductParser.parseCondition (some t) = "new" := by
  have ht : t ≠ "" := by
    rintro rfl
    exact absurd h (by decide)
  simp only [GenericProductParser.parseCondition]
  rw [if_neg ht]
  rw [if_pos h]

theorem parseCondition_renewed (t : String)
    (h : jsIncludes (jsLowerStr t) "renewed" = true) :
    GenericProductParser.parseCondition (some t) = "new" :=
  parseCondition_new t (includes_renewed_includes_new _ h)

theorem parseCondition_refurb (t : String)
    (hn : jsIncludes (jsLowerStr t) "new" = false)
    (hr : jsIncludes (jsLowerStr t) "refurb" = true) :
    GenericProductParser.parseCondition (some t) = "refurb" := by
  have ht : t ≠ "" := by
    rintro rfl
    exact absurd hr (by decide)
  simp only [GenericProductParser.parseCondition]
  rw [if_neg ht]
  rw [hn, hr]
  rfl

theorem parseCondition_used (t : String)
    (hn : jsIncludes (jsLowerStr t) "new" = false)
    (hr : jsIncludes (jsLowerStr t) "refurb" = false)
    (hu : (jsIncludes (jsLowerStr t) "used" ||
      jsIncludes (jsLowerStr t) "pre-owned") = true) :
    GenericProductParser.parseCondition (some t) = "used" := by
  have hren : jsIncludes (jsLowerStr t) "renewed" = false := by
    cases hc : jsIncludes (jsLowerStr t) "renewed"
    · rfl
    · exact absurd (includes_renewed_includes_new _ hc) (by simp [hn])
  have ht : t ≠ "" := by
    rintro rfl
    exact absurd hu (by decide)
  simp only [GenericProductParser.parseCondition]
  rw [if_neg ht]
  rw [hn, hr, hren, hu]
  rfl

theorem parseCondition_unknown (t : String)
    (hn : jsIncludes (jsLowerStr t) "new" = false)
    (hr : jsIncludes (jsLowerStr t) "refurb" = false)
    (hu : jsIncludes (jsLowerStr t) "used" = false)
    (hp : jsIncludes (jsLowerStr t) "pre-owned" = false) :
    GenericProductParser.parseCondition (some t) = "unknown" := by
  have hren : jsIncludes (jsLowerStr t) "renewed" = false := by
    cases hc : jsIncludes (jsLowerStr t) "renewed"
    · rfl
    · exact absurd (includes_renewed_includes_new _ hc) (by simp [hn])
  by_cases ht : t = ""
  · subst ht
    rfl
  · simp only [GenericProductParser.parseCondition]
    rw [if_neg ht]
    rw [hn, hr, hren, hu, hp]
    rfl

/-!
## Claim C5
-/

/-- Concrete search-result card whose condition text is `Pre-Owned`. -/
def c5Elem : GenElem where
  link := some { text := "Console", href := "http://y" }
  headingText := none
  priceText := none
  shippingText := none
  conditionText := some "Pre-Owned"
  textContent := ""
  hasSponsoredEl := false
  imgSrc := none

/-- Counterexample to C5 as stated: `renewed` is classified as `new`
(the `new` substring check runs first), and the search-listing
classifier does not recognize `pre-owned` at all. -/
theorem claim_C5_counterexample :
    GenericProductParser.parseCondition (some "renewed") = "new" ∧
      ("new" : String) ≠ "refurb" ∧
      (GenericSearchParser.parseListingElement "example.com" c5Elem 0 "" 0).condition =
        "unknown" ∧
      ("unknown" : String) ≠ "used" := by
  refine ⟨by decide, by decide, by decide, by decide⟩

/-- C5 (amended): condition text is classified by an ordered substring
cascade in which `new` is checked first — so any text containing `new`
(including `renewed`) maps to new; text without `new` containing
`refurb` maps to refurb; text without those containing `used` or
`pre-owned` maps to used; anything else (or absent text) maps to
unknown.  The search-listing variant checks only the substrings `new`,
`refurb`, `used` in that order and leaves the condition `unknown`
otherwise — `renewed` and `pre-owned` are not recognized there. -/
theorem claim_C5_amended :
    (∀ t : String, jsIncludes (jsLowerStr t) "new" = true →
      GenericProductParser.parseCondition (some t) = "new") ∧
    (∀ t : String, jsIncludes (jsLowerStr t) "renewed" = true →
      GenericProductParser.parseCondition (some t) = "new") ∧
    (∀ t : String, jsIncludes (jsLowerStr t) "new" = false →
      jsIncludes (jsLowerStr t) "refurb" = true →
      GenericProductParser.parseCondition (some t) = "refurb") ∧
    (∀ t : String, jsIncludes (jsLowerStr t) "new" = false →
      jsIncludes (jsLowerStr t) "refurb" = false →
      (jsIncludes (jsLowerStr t) "used" ||
        jsIncludes (jsLowerStr t) "pre-owned") = true →
      GenericProductParser.parseCondition (some t) = "used") ∧
    (∀ t : String, jsIncludes (jsLowerStr t) "new" = false →
      jsIncludes (jsLowerStr t) "refurb" = false →
      jsIncludes (jsLowerStr t) "used" = false →
      jsIncludes (jsLowerStr t) "pre-owned" = false →
      GenericProductParser.parseCondition (some t) = "unknown") ∧
    (GenericProductParser.parseCondition none = "unknown") ∧
    (∀ (hostname : String) (el : GenElem) (now : Nat) (capturedAt : String)
        (index : Nat),
      (GenericSearchParser.parseListingElement hostname el now capturedAt
          index).condition =
        (match el.conditionText with
         | none => "unknown"
         | some ct =>
           if jsIncludes (jsLowerStr ct) "new" then "new"
           else if jsIncludes (jsLowerStr ct) "refurb" then "refurb"
           else if jsIncludes (jsLowerStr ct) "used" then "used"
           else "unknown")) :=
  ⟨parseCondition_new, parseCondition_renewed, parseCondition_refurb,
    parseCondition_used, parseCondition_unknown, rfl,
    parseListingElement_condition⟩

/-- Witness for C5 (amended) at concrete condition texts. -/
theorem claim_C5_amended_witness :
    GenericProductParser.parseCondition (some "Renewed") = "new" ∧
      GenericProductParser.parseCondition (some "Pre-Owned") = "used" :=
  ⟨claim_C5_amended.2.1 "Renewed" (by decide),
    claim_C5_amended.2.2.2.1 "Pre-Owned" (by decide) (by decide) (by decide)⟩

/-!
## Background service worker (popup.js, second part): aggregation and
ranking.

A network call is modelled by its observable outcome: `Except.error`
when `fetch`/`sendMessage` itself throws, otherwise an HTTP response
with its `ok` flag and a body that either parsed (`Except.ok`) or threw
during `.json()` (`Except.error`).
-/

/-- Ranked result returned by the ranking step. -/
structure RankedResult where
  listing : Listing
  score_total : ℚ
  score_breakdown : List (String × ℚ)
  explanation_bullets : List String
deriving Repr, DecidableEq

/-- HTTP response as the code observes it: `ok` flag and parsed body
(`Except.error` = `.json()` threw). -/
structure FetchResponse (α : Type) where
  ok : Bool
  body : Except Unit α

/-- Content-script scrape response for the Newegg tab. -/
structure ScrapeResponse where
  error : Option String
  listings : Option (List Listing)
deriving Repr, DecidableEq

/-- Embedding of `fetchEbayCandidates` (popup.js lines 546–564): throw
on non-ok is caught to `[]`, a missing `listings` field becomes `[]`. -/
def fetchEbayCandidates :
    Except Unit (FetchResponse (Option (List Listing))) → List Listing
  | .error _ => []
  | .ok r =>
    if r.ok then
      match r.body with
      | .ok d => d.getD []
      | .error _ => []
    else []

/-- Embedding of `fetchNeweggCandidates` (popup.js lines 566–598): a
thrown call or a truthy `response.error` is caught to `[]`, a missing
`listings` field becomes `[]`. -/
def fetchNeweggCandidates : Except Unit ScrapeResponse → List Listing
  | .error _ => []
  | .ok r => if jsTruthyS r.error then [] else r.listings.getD []

/-- Embedding of `gatherCandidates` (popup.js lines 520–544): eBay
listings then Newegg listings.  Each source call sits in its own
try/catch in the source; both fetch embeddings are total, so the catch
arms contribute nothing and aggregation is plain concatenation in
source order. -/
def gatherCandidates (ebay : Except Unit (FetchResponse (Option (List Listing))))
    (newegg : Except Unit ScrapeResponse) : List Listing :=
  fetchEbayCandidates ebay ++ fetchNeweggCandidates newegg

/-- Failure of the eBay source: thrown fetch, non-ok response, body that
does not parse, or a body without a `listings` field. -/
def ebayFails : Except Unit (FetchResponse (Option (List Listing))) → Bool
  | .error _ => true
  | .ok r =>
    !r.ok ||
      (match r.body with
       | .error _ => true
       | .ok d => d.isNone)

/-- Failure of the Newegg source: thrown call, truthy `response.error`,
or a response without a `listings` field. -/
def neweggFails : Except Unit ScrapeResponse → Bool
  | .error _ => true
  | .ok r => jsTruthyS r.error || r.listings.isNone

theorem fetchEbayCandidates_of_fail
    (o : Except Unit (FetchResponse (Option (List Listing))))
    (h : ebayFails o = true) : fetchEbayCandidates o = [] := by
  cases o with
  | error e => rfl
  | ok r =>
    simp only [ebayFails] at h
    simp only [fetchEbayCandidates]
    cases hb : r.body with
    | error e => simp [hb]
    | ok d =>
      rw [hb] at h
      simp only [Bool.or_eq_true, Bool.not_eq_true'] at h
      rcases h with h | h
      · simp [h]
      · simp [hb, Option.isNone_iff_eq_none.mp h]

theorem fetchNeweggCandidates_of_fail (o : Except Unit ScrapeResponse)
    (h : neweggFails o = true) : fetchNeweggCandidates o = [] := by
  cases o with
  | error e => rfl
  | ok r =>
    simp only [neweggFails, Bool.or_eq_true] at h
    simp only [fetchNeweggCandidates]
    rcases h with h | h
    · simp [h]
    · simp [Option.isNone_iff_eq_none.mp h]

/-!
## Claim C2
-/

/-- C2: when one source succeeds with listings `ls` and the other
fails, `gatherCandidates` returns exactly `ls` in its original order;
the embedding is a total function, so no exception escapes. -/
theorem claim_C2 :
    (∀ (ls : List Listing) (o : Except Unit ScrapeResponse),
      neweggFails o = true →
        gatherCandidates (.ok ⟨true, .ok (some ls)⟩) o = ls) ∧
    (∀ (ls : List Listing)
        (o : Except Unit (FetchResponse (Option (List Listing)))),
      ebayFails o = true →
        gatherCandidates o (.ok ⟨none, some ls⟩) = ls) := by
  constructor
  · intro ls o h
    unfold gatherCandidates
    rw [fetchNeweggCandidates_of_fail o h]
    simp [fetchEbayCandidates]
  · intro ls o h
    unfold gatherCandidates
    rw [fetchEbayCandidates_of_fail o h]
    simp [fetchNeweggCandidates, jsTruthyS]

/-- Witness for C2: one listing from eBay while the Newegg call throws,
and the mirror case. -/
theorem claim_C2_witness :
    (neweggFails (.error ()) = true ∧
      gatherCandidates (.ok ⟨true, .ok (some [createEmptyListing "t"])⟩)
        (.error ()) = [createEmptyListing "t"]) ∧
    (ebayFails (.error ()) = true ∧
      gatherCandidates (.error ())
        (.ok ⟨none, some [createEmptyListing "t"]⟩) = [createEmptyListing "t"]) :=
  ⟨⟨rfl, claim_C2.1 [createEmptyListing "t"] (.error ()) rfl⟩,
    ⟨rfl, claim_C2.2 [createEmptyListing "t"] (.error ()) rfl⟩⟩

/-!
## Ranking (popup.js lines 604–636)
-/

/-- Price key used by the fallback comparator `(a.price?.value || 0)`:
a missing or `NaN` value counts as 0. -/
def priceKey (l : Listing) : ℚ :=
  l.price.value.getD 0

/-- Fallback ranking (popup.js lines 625–634): candidates sorted
ascending by price (the JavaScript sort is stable, as is `mergeSort`),
first ten, each wrapped with a neutral score, empty breakdown and one
explanatory bullet. -/
def rankFallback (candidates : List Listing) : List RankedResult :=
  ((candidates.mergeSort (fun a b => decide (priceKey a ≤ priceKey b))).take 10).map
    (fun listing =>
      { listing := listing
        score_total := 1 / 2
        score_breakdown := []
        explanation_bullets := ["Ranking unavailable - sorted by price"] })

/-- Embedding of `rankCandidates`: the server result on success (a
missing `ranked` field becomes `[]`), the price-sort fallback when the
fetch throws, the response is non-ok, or the body does not parse. -/
def rankCandidates
    (outcome : Except Unit (FetchResponse (Option (List RankedResult))))
    (candidates : List Listing) : List RankedResult :=
  match outcome with
  | .error _ => rankFallback candidates
  | .ok r =>
    if r.ok then
      match r.body with
      | .ok d => d.getD []
      | .error _ => rankFallback candidates
    else rankFallback candidates

/-- Failure of the ranking call: thrown fetch, non-2xx response, or
malformed body. -/
def rankFails : Except Unit (FetchResponse (Option (List RankedResult))) → Bool
  | .error _ => true
  | .ok r =>
    !r.ok ||
      (match r.body with
       | .error _ => true
       | .ok _ => false)

theorem rankCandidates_of_fail
    (o : Except Unit (FetchResponse (Option (List RankedResult))))
    (candidates : List Listing) (h : rankFails o = true) :
    rankCandidates o candidates = rankFallback candidates := by
  cases o with
  | error e => rfl
  | ok r =>
    simp only [rankFails] at h
    simp only [rankCandidates]
    cases hb : r.body with
    | error e => simp [hb]
    | ok d =>
      rw [hb] at h
      simp only [Bool.or_eq_true, Bool.not_eq_true'] at h
      rcases h with h | h
      · simp [h]
      · simp at h

/-- The fallback price comparator is transitive. -/
theorem priceLe_trans (a b c : Listing)
    (hab : decide (priceKey a ≤ priceKey b) = true)
    (hbc : decide (priceKey b ≤ priceKey c) = true) :
    decide (priceKey a ≤ priceKey c) = true := by
  simp only [decide_eq_true_eq] at *
  exact le_trans hab hbc

/-- The fallback price comparator is total. -/
theorem priceLe_total (a b : Listing) :
    (decide (priceKey a ≤ priceKey b) || decide (priceKey b ≤ priceKey a)) = true := by
  rcases le_total (priceKey a) (priceKey b) with h | h <;> simp [h]

/-!
## Claim C1
-/

/-- C1: whenever the ranking authority call fails, `rankCandidates`
returns exactly `min 10 count` results sorted ascending by price, each
with `score_total = 1/2`, an empty breakdown and the single explanatory
bullet; the embedding is total, so the fallback cannot throw. -/
theorem claim_C1
    (o : Except Unit (FetchResponse (Option (List RankedResult))))
    (candidates : List Listing) (h : rankFails o = true) :
    rankCandidates o candidates = rankFallback candidates ∧
      (rankCandidates o candidates).length = min 10 candidates.length ∧
      List.Sorted (fun a b : RankedResult =>
        priceKey a.listing ≤ priceKey b.listing) (rankCandidates o candidates) ∧
      ∀ r ∈ rankCandidates o candidates,
        r.score_total = 1 / 2 ∧ r.score_breakdown = [] ∧
          r.explanation_bullets = ["Ranking unavailable - sorted by price"] := by
  have he := rankCandidates_of_fail o candidates h
  refine ⟨he, ?_, ?_, ?_⟩
  · rw [he]
    unfold rankFallback
    rw [List.length_map, List.length_take, List.length_mergeSort]
  · rw [he]
    unfold rankFallback
    have hs := @List.sorted_mergeSort Listing
      (fun a b : Listing => decide (priceKey a ≤ priceKey b))
      priceLe_trans priceLe_total candidates
    have hs' : List.Pairwise (fun a b : Listing => priceKey a ≤ priceKey b)
        ((candidates.mergeSort
          (fun a b => decide (priceKey a ≤ priceKey b))).take 10) :=
      List.Pairwise.sublist (List.take_sublist _ _)
        (hs.imp (fun hab => of_decide_eq_true hab))
    exact List.pairwise_map.mpr hs'
  · rw [he]
    intro r hr
    unfold rankFallback at hr
    obtain ⟨x, -, rfl⟩ := List.mem_map.mp hr
    exact ⟨rfl, rfl, rfl⟩

/-- Witness for C1: a thrown ranking call over two concrete listings. -/
theorem claim_C1_witness :
    rankFails (.error ()) = true ∧
      (rankCandidates (.error ())
          [createEmptyListing "a", createEmptyListing "b"]).length =
        min 10 2 ∧
      ∀ r ∈ rankCandidates (.error ())
          [createEmptyListing "a", createEmptyListing "b"],
        r.score_total = 1 / 2 ∧ r.score_breakdown = [] ∧
          r.explanation_bullets = ["Ranking unavailable - sorted by price"] :=
  ⟨rfl,
    (claim_C1 (.error ()) [createEmptyListing "a", createEmptyListing "b"]
      rfl).2.1,
    (claim_C1 (.error ()) [createEmptyListing "a", createEmptyListing "b"]
      rfl).2.2.2⟩

/-!
## Find-deals handler (popup.js lines 480–514) and claim C8
-/

/-- Response of the find-deals handler: `message` is present only in
the empty-candidates outcome, `total_candidates` only in the ranked
outcome. -/
structure FindDealsResponse where
  ranked : List RankedResult
  message : Option String
  total_candidates : Option Nat
deriving Repr

/-- Embedding of `handleFindDeals`: gather, then either the explicit
empty-result response or the ranked response. -/
def handleFindDeals
    (ebay : Except Unit (FetchResponse (Option (List Listing))))
    (newegg : Except Unit ScrapeResponse)
    (rank : Except Unit (FetchResponse (Option (List RankedResult)))) :
    FindDealsResponse :=
  let candidates := gatherCandidates ebay newegg
  if candidates.length = 0 then
    { ranked := [], message := some "No candidates found", total_candidates := none }
  else
    { ranked := rankCandidates rank candidates
      message := none
      total_candidates := some candidates.length }

/-- C8: when both sources fail, aggregation returns the empty candidate
list and the handler returns the explicit `No candidates found` result
with an empty ranked list; the embedding is total, so nothing throws. -/
theorem claim_C8
    (ebay : Except Unit (FetchResponse (Option (List Listing))))
    (newegg : Except Unit ScrapeResponse)
    (rank : Except Unit (FetchResponse (Option (List RankedResult))))
    (he : ebayFails ebay = true) (hn : neweggFails newegg = true) :
    gatherCandidates ebay newegg = [] ∧
      handleFindDeals ebay newegg rank =
        { ranked := [], message := some "No candidates found",
          total_candidates := none } := by
  have hg : gatherCandidates ebay newegg = [] := by
    unfold gatherCandidates
    rw [fetchEbayCandidates_of_fail ebay he,
      fetchNeweggCandidates_of_fail newegg hn]
    rfl
  refine ⟨hg, ?_⟩
  unfold handleFindDeals
  rw [hg]
  rfl

/-- Witness for C8: both source calls throw. -/
theorem claim_C8_witness :
    ebayFails (.error ()) = true ∧ neweggFails (.error ()) = true ∧
      gatherCandidates (.error ()) (.error ()) = [] ∧
      handleFindDeals (.error ()) (.error ()) (.error ()) =
        { ranked := [], message := some "No candidates found",
          total_candidates := none } :=
  ⟨rfl, rfl,
    (claim_C8 (.error ()) (.error ()) (.error ()) rfl rfl).1,
    (claim_C8 (.error ()) (.error ()) (.error ()) rfl rfl).2⟩

/-!
## Generic product parser (src/extension/content/parsers/generic_product_page.js)

JSON values the parser inspects are modelled by small inductive types:
a `@type` can be a string or an array, a `brand` a string or an object,
an `image` a string or an array, `offers` a single object or an array.
-/

/-- Value of a JSON-LD `@type` field. -/
inductive TypeVal where
  | strv (s : String)
  | arr (l : List String)
deriving Repr, DecidableEq

/-- Value of a JSON-LD `brand` field. -/
inductive BrandVal where
  | strv (s : String)
  | obj (name : Option String)
deriving Repr, DecidableEq

/-- Value of a JSON-LD `image` field. -/
inductive ImageVal where
  | strv (s : String)
  | arr (l : List String)
deriving Repr, DecidableEq

/-- One JSON-LD offer object. `priceRaw` is the textual rendering of
`offer.price` handed to `parseFloat` (JSON numbers and strings alike). -/
structure JsonLdOffer where
  priceRaw : Option String
  priceCurrency : Option String
  availability : Option String
  itemCondition : Option String
deriving Repr, DecidableEq

/-- Value of a JSON-LD `offers` field. -/
inductive OffersVal where
  | one (o : JsonLdOffer)
  | many (l : List JsonLdOffer)
deriving Repr, DecidableEq

/-- One JSON-LD `aggregateRating` object, fields as text for
`parseFloat`/`parseInt`. -/
structure JsonLdRating where
  ratingValue : Option String
  reviewCount : Option String
deriving Repr, DecidableEq

/-- Payload fields of a JSON-LD product candidate. -/
structure JsonLdProduct where
  name : Option String
  brand : Option BrandVal
  image : Option ImageVal
  description : Option String
  offers : Option OffersVal
  aggregateRating : Option JsonLdRating
deriving Repr, DecidableEq

/-- An entry of a `@graph` array. -/
structure JsonLdGraphItem where
  atType : Option TypeVal
  product : JsonLdProduct
deriving Repr, DecidableEq

/-- One top-level JSON-LD item of a script block. -/
structure JsonLdItem where
  atType : Option TypeVal
  graph : Option (List JsonLdGraphItem)
  product : JsonLdProduct
deriving Repr, DecidableEq

/-- The `item['@type'] === 'Product' || item['@type']?.includes('Product')`
test: equality or substring for a string type, exact membership for an
array type. -/
def isProductType : Option TypeVal → Bool
  | none => false
  | some (.strv s) => s = "Product" || jsIncludes s "Product"
  | some (.arr l) => l.contains "Product"

/-- The strict `graphItem['@type'] === 'Product'` test. -/
def isStrictProduct : Option TypeVal → Bool
  | some (.strv s) => s = "Product"
  | _ => false

/-- Result of `parseJsonLdProduct`: fields stay `none` when the product
did not provide them. -/
structure ProdResult where
  title : Option String
  brand : Option String
  image : Option String
  description : Option String
  price : Option ℚ
  currency : Option String
  availability : Option String
  condition : Option String
  rating : Option ℚ
  reviewCount : Option Int
deriving Repr, DecidableEq

/-- Embedding of `parseJsonLdProduct` (lines 97–122).  An empty offers
array makes `offers[0]` undefined and the following field access throw
(`Except.error`), which the caller treats as a skipped script.
A brand object without a `name` is kept as the object and stringifies
to `[object Object]` downstream; `image?.[0]` on a string image is its
first character; on an empty array the fallback keeps the array, which
stringifies to the empty string. -/
def parseJsonLdProduct (p : JsonLdProduct) : Except Unit ProdResult :=
  let base : ProdResult :=
    { title := p.name
      brand :=
        match p.brand with
        | none => none
        | some (.strv s) => some s
        | some (.obj (some n)) => some n
        | some (.obj none) => some "[object Object]"
      image :=
        match p.image with
        | none => none
        | some (.strv s) =>
          match s.data with
          | c :: _ => some (String.singleton c)
          | [] => some ""
        | some (.arr l) =>
          match l.head? with
          | some h => some h
          | none => some ""
      description := p.description
      price := none
      currency := none
      availability := none
      condition := none
      rating := none
      reviewCount := none }
  let withOffers : Except Unit ProdResult :=
    match p.offers with
    | none => .ok base
    | some ov =>
      match (match ov with | .one o => some o | .many l => l.head?) with
      | none => .error ()
      | some o =>
        .ok { base with
          price :=
            (match o.priceRaw with
             | none => none
             | some s =>
               match jsParseFloat s with
               | none => none
               | some q => if q = 0 then none else some q)
          currency := jsOrS o.priceCurrency (some "USD")
          availability := o.availability
          condition := some (GenericProductParser.parseCondition o.itemCondition) }
  match withOffers with
  | .error e => .error e
  | .ok r1 =>
    .ok
      (match p.aggregateRating with
       | none => r1
       | some ar =>
         { r1 with
             rating :=
               match ar.ratingValue with
               | none => none
               | some s => jsParseFloat s
             reviewCount :=
               match ar.reviewCount with
               | none => none
               | some s => jsParseInt s })

/-- First product candidate of one script's item list, as an attempted
parse: the item whose own type matches, else the first strict Product
of its `@graph`. -/
def findProductAttempt : List JsonLdItem → Option (Except Unit ProdResult)
  | [] => none
  | it :: rest =>
    if isProductType it.atType then some (parseJsonLdProduct it.product)
    else
      match it.graph with
      | some gitems =>
        match gitems.find? (fun g => isStrictProduct g.atType) with
        | some g => some (parseJsonLdProduct g.product)
        | none => findProductAttempt rest
      | none => findProductAttempt rest

/-- Embedding of `extractJsonLd` (lines 64–95): each script either
failed `JSON.parse` (`Except.error`, skipped) or parsed into its item
list (`Array.isArray(data) ? data : [data]`).  A product whose parse
throws skips the whole script. -/
def extractJsonLd : List (Except Unit (List JsonLdItem)) → Option ProdResult
  | [] => none
  | s :: rest =>
    match s with
    | .error _ => extractJsonLd rest
    | .ok items =>
      match findProductAttempt items with
      | some (.ok r) => some r
      | some (.error _) => extractJsonLd rest
      | none => extractJsonLd rest

/-- The document as the product parser observes it: page facts,
JSON-LD script parses, meta tags (property/name → content) and the
trimmed-text answer of each `querySelector`. -/
structure ProdDoc where
  url : String
  hostname : String
  timestamp : String
  scripts : List (Except Unit (List JsonLdItem))
  metas : List (String × String)
  queryText : String → Option String

/-- Embedding of `GenericProductParser.detectSource` (lines 48–59). -/
def GenericProductParser.detectSource (hostname : String) : String :=
  let h := jsLowerStr hostname
  if jsIncludes h "ebay" then "ebay"
  else if jsIncludes h "newegg" then "newegg"
  else if jsIncludes h "amazon" then "amazon"
  else if jsIncludes h "bestbuy" then "bestbuy"
  else if jsIncludes h "walmart" then "walmart"
  else if jsIncludes h "target" then "target"
  else String.mk ((replaceFirst h.data "www.".data).takeWhile (fun c => c ≠ '.'))

/-- Embedding of `getMetaContent` (lines 148–152): first matching meta
tag's content, with an empty content collapsing to null via `|| null`. -/
def getMetaContent (doc : ProdDoc) (n : String) : Option String :=
  match doc.metas.find? (fun m => m.1 = n) with
  | some m => if m.2 = "" then none else some m.2
  | none => none

/-- Result of `extractMetaTags`: the six fields the function always
sets. -/
structure MetaResult where
  title : Option String
  image : Option String
  description : Option String
  price : Option ℚ
  currency : String
  brand : Option String
deriving Repr, DecidableEq

/-- Embedding of `extractMetaTags` (lines 127–146): Open-Graph fields,
product meta price (`parseFloat(...) || null`), currency defaulted to
USD, twitter-card title fallback. -/
def extractMetaTags (doc : ProdDoc) : MetaResult where
  title :=
    match getMetaContent doc "og:title" with
    | none => getMetaContent doc "twitter:title"
    | some t => some t
  image := getMetaContent doc "og:image"
  description := getMetaContent doc "og:description"
  price :=
    match getMetaContent doc "product:price:amount" with
    | none => none
    | some s =>
      match jsParseFloat s with
      | none => none
      | some q => if q = 0 then none else some q
  currency := (getMetaContent doc "product:price:currency").getD "USD"
  brand := getMetaContent doc "product:brand"

/-- Title selector cascade of `extractFromDom` (lines 161–170). -/
def titleSelectors : List String :=
  ["h1[itemprop=\"name\"]", "[data-testid=\"product-title\"]",
   ".product-title h1", ".product-name h1", "#productTitle",
   "h1.product-title", ".pdp-title h1", "h1"]

/-- Price selector cascade of `extractFromDom` (lines 174–184). -/
def priceSelectors : List String :=
  ["[itemprop=\"price\"]", "[data-testid=\"product-price\"]",
   ".product-price", ".price-current", "#priceblock_ourprice",
   ".main-price",
   "[class*=\"price\"]:not([class*=\"was-price\"]):not([class*=\"old-price\"])",
   ".sale-price", ".now-price"]

/-- Shipping selector cascade of `extractFromDom` (lines 189–195). -/
def shippingSelectors : List String :=
  ["[data-testid=\"shipping-price\"]", ".shipping-price",
   "#shipping-message", "[class*=\"shipping\"]", "[class*=\"delivery\"]"]

/-- Brand selector cascade of `extractFromDom` (lines 204–209). -/
def brandSelectors : List String :=
  ["[itemprop=\"brand\"]", ".product-brand", ".brand-name",
   "a[href*=\"/brand/\"]"]

/-- Condition selector cascade of `extractFromDom` (lines 213–217). -/
def conditionSelectors : List String :=
  ["[itemprop=\"itemCondition\"]", ".condition", "[class*=\"condition\"]"]

/-- Embedding of `getFirstText` (lines 224–239): first selector whose
element has non-empty trimmed text shorter than 500 characters. -/
def getFirstText (doc : ProdDoc) : List String → Option String
  | [] => none
  | s :: rest =>
    match doc.queryText s with
    | some txt =>
      let t := jsTrim txt
      if t ≠ "" ∧ t.length < 500 then some t else getFirstText doc rest
    | none => getFirstText doc rest

/-- Embedding of `parsePrice` (lines 241–250): the
`\$?\s*([\d,]+\.?\d*)` capture parsed with commas stripped; `null` on
no text or no match (`NaN` collapses with `null`, both falsy and never
inspected further). -/
def parsePrice (text : Option String) : Option ℚ :=
  match text with
  | none => none
  | some t =>
    match priceCapture t.data with
    | some cap => jsParseFloat (String.mk (stripCommas cap))
    | none => none

/-- Result of `extractFromDom`: the six fields the function always
sets. -/
structure DomResult where
  title : Option String
  price : Option ℚ
  shippingText : Option String
  shippingCost : Option ℚ
  brand : Option String
  condition : String
deriving Repr, DecidableEq

/-- Embedding of `extractFromDom` (lines 157–222). -/
def extractFromDom (doc : ProdDoc) : DomResult :=
  let shippingText := getFirstText doc shippingSelectors
  { title := getFirstText doc titleSelectors
    price := parsePrice (getFirstText doc priceSelectors)
    shippingText := shippingText
    shippingCost :=
      if (match shippingText with
          | some st => jsIncludes (jsLowerStr st) "free"
          | none => false) then some 0
      else parsePrice shippingText
    brand := getFirstText doc brandSelectors
    condition :=
      GenericProductParser.parseCondition (getFirstText doc conditionSelectors) }

/-- Embedding of `generateKeywords` (lines 264–280): brand, then up to
six title tokens longer than two characters (non-word characters
replaced by spaces), deduplicated preserving first occurrence, joined
with spaces. -/
def generateKeywords (brand title : Option String) : String :=
  let parts :=
    (if jsTruthyS brand then [brand.getD ""] else []) ++
      (match title with
       | some t =>
         if t ≠ "" then
           ((jsSplitWs (jsNormalizeWord t.data)).filter
             (fun w => w.length > 2)).take 6
         else []
       | none => [])
  String.intercalate " " parts.eraseDups

/-- Product-page context produced by `extract`; every field the
JavaScript object can carry, `none` when never assigned. -/
structure ProdContext where
  type : String
  url : String
  source : String
  timestamp : String
  title : Option String
  brand : Option String
  image : Option String
  description : Option String
  price : Option ℚ
  currency : Option String
  availability : Option String
  condition : Option String
  rating : Option ℚ
  reviewCount : Option Int
  shippingText : Option String
  shippingCost : Option ℚ
  keywords : Option String
deriving Repr, DecidableEq

/-- Embedding of `GenericProductParser.extract` (lines 10–43): JSON-LD
first and, when it yields a product, an immediate return; otherwise
meta tags (when they carry a title), then DOM heuristics (when they
find a title or a truthy price), each `Object.assign` overriding all
six of its source's fields, then keyword generation. -/
def GenericProductParser.extract (doc : ProdDoc) : ProdContext :=
  let base : ProdContext :=
    { type := "unknown", url := doc.url
      source := GenericProductParser.detectSource doc.hostname
      timestamp := doc.timestamp
      title := none, brand := none, image := none, description := none
      price := none, currency := none, availability := none
      condition := none, rating := none, reviewCount := none
      shippingText := none, shippingCost := none, keywords := none }
  match extractJsonLd doc.scripts with
  | some j =>
    { base with
        title := j.title, brand := j.brand, image := j.image
        description := j.description, price := j.price
        currency := j.currency, availability := j.availability
        condition := j.condition, rating := j.rating
        reviewCount := j.reviewCount, type := "product" }
  | none =>
    let meta := extractMetaTags doc
    let c1 :=
      if jsTruthyS meta.title then
        { base with
            title := meta.title, image := meta.image
            description := meta.description, price := meta.price
            currency := some meta.currency, brand := meta.brand }
      else base
    let dom := extractFromDom doc
    let c2 :=
      if jsTruthyS dom.title ||
          (match dom.price with | some q => q ≠ 0 | none => false) then
        { c1 with
            title := dom.title, price := dom.price
            shippingText := dom.shippingText
            shippingCost := dom.shippingCost
            brand := dom.brand, condition := some dom.condition
            type := "product" }
      else c1
    { c2 with keywords := some (generateKeywords c2.brand c2.title) }

/-!
## Claim C6
-/

/-- Concrete product page: a JSON-LD Product without offers (so no
price) alongside meta tags that carry a title and a price. -/
def c6Doc : ProdDoc where
  url := "http://shop.example/p"
  hostname := "shop.example"
  timestamp := "t"
  scripts :=
    [.ok [{ atType := some (.strv "Product"), graph := none,
            product := { name := some "Gadget", brand := none, image := none,
                         description := none, offers := none,
                         aggregateRating := none } }]]
  metas := [("product:price:amount", "42"), ("og:title", "Gadget Deluxe")]
  queryText := fun _ => none

theorem jsParseFloat_fortytwo : jsParseFloat "42" = some 42 := by
  show some (decimalValue ['4', '2'] []) = some 42
  simp only [decimalValue, digitsToNat, show ('4').toNat.sub 48 = 4 from rfl,
    show ('2').toNat.sub 48 = 2 from rfl]
  norm_num

/-- Counterexample to C6 as stated: structured data succeeds but leaves
the price unset, the meta tags provide one, yet the extracted context
has no price — metadata is never consulted once JSON-LD succeeds. -/
theorem claim_C6_counterexample :
    (extractJsonLd c6Doc.scripts).isSome = true ∧
      (extractMetaTags c6Doc).price = some 42 ∧
      (GenericProductParser.extract c6Doc).price = none := by
  refine ⟨rfl, ?_, rfl⟩
  show (match jsParseFloat "42" with
        | none => none
        | some q => if q = 0 then none else some q) = some 42
  rw [jsParseFloat_fortytwo]
  norm_num

/-- C6 (amended): document metadata is consulted only when no JSON-LD
Product parses.  When structured data succeeds, `extract` returns a
context built from it alone — the meta tags have no effect and fields
the product left unset stay unset; metadata fills fields only on pages
without a parseable JSON-LD Product (and is in turn overridden by DOM
extraction when that finds a title or price). -/
theorem claim_C6_amended :
    (∀ (doc : ProdDoc) (j : ProdResult), extractJsonLd doc.scripts = some j →
      GenericProductParser.extract doc =
          GenericProductParser.extract
            { doc with metas := [], queryText := fun _ => none } ∧
        (GenericProductParser.extract doc).type = "product" ∧
        (GenericProductParser.extract doc).price = j.price ∧
        (GenericProductParser.extract doc).title = j.title) ∧
    (∀ doc : ProdDoc, extractJsonLd doc.scripts = none →
      jsTruthyS (extractMetaTags doc).title = true →
      (extractFromDom doc).title = none →
      (extractFromDom doc).price = none →
      (GenericProductParser.extract doc).title = (extractMetaTags doc).title ∧
        (GenericProductParser.extract doc).price = (extractMetaTags doc).price ∧
        (GenericProductParser.extract doc).image = (extractMetaTags doc).image ∧
        (GenericProductParser.extract doc).brand = (extractMetaTags doc).brand) := by
  constructor
  · intro doc j h
    unfold GenericProductParser.extract
    rw [h]
    exact ⟨rfl, rfl, rfl, rfl⟩
  · intro doc hnone hmeta hdt hdp
    unfold GenericProductParser.extract
    rw [hnone]
    simp only [hmeta, if_true]
    have hguard : (jsTruthyS (extractFromDom doc).title ||
        (match (extractFromDom doc).price with
         | some q => q ≠ 0
         | none => false)) = false := by
      rw [hdt, hdp]
      rfl
    simp only [hguard]
    simp

/-- Witness for C6 (amended) at the concrete page `c6Doc`. -/
theorem claim_C6_amended_witness :
    extractJsonLd c6Doc.scripts =
        some ⟨some "Gadget", none, none, none, none, none, none, none, none,
          none⟩ ∧
      (GenericProductParser.extract c6Doc).type = "product" ∧
      (GenericProductParser.extract c6Doc).price =
        (⟨some "Gadget", none, none, none, none, none, none, none, none,
          none⟩ : ProdResult).price ∧
      (GenericProductParser.extract c6Doc).title =
        (⟨some "Gadget", none, none, none, none, none, none, none, none,
          none⟩ : ProdResult).title :=
  ⟨rfl, (claim_C6_amended.1 c6Doc
    ⟨some "Gadget", none, none, none, none, none, none, none, none, none⟩
    rfl).2⟩

/-- Witness for C7 (amended): a token of a concrete title is longer
than two characters and already lowercase. -/
theorem claim_C7_amended_witness :
    2 < ("cable" : String).length ∧ jsLowerStr "cable" = "cable" :=
  claim_C7_amended.2.2.1 "usb cable" "cable" (by decide)
